import Mathlib

/-!
Shallow embedding of the comet-pt100 measurement application
(`comet_pt100.py`): the `MeasureProcess.run` / `measure` / `read` control
flow, the extended ITC chamber start/stop acknowledgement checks, and the
K2700 fetch dictionary lookup.  Temperatures, humidity values and the wall
clock are modelled as rationals; the clock advances by the poll interval on
each `time.sleep`; every device interaction is recorded in an event trace.
The two `while` loops of `measure` carry explicit fuel and return `none`
on fuel exhaustion.
-/

set_option allowUnsafeReducibility true in
attribute [semireducible] Rat.add Rat.sub Rat.mul Rat.inv Rat.ofScientific

namespace Pt100

/-- `MeasureProcess.poll_interval` (seconds). -/
def poll_interval : ℚ := 10

/-- `MeasureProcess.offset`: the convergence tolerance (`offset = .1`). -/
def offset : ℚ := 1/10

/-- One row of the ramp table (`columns=["end", "interval"]`); `endTemp` is
the target temperature in degC (the `end` column), `interval` the dwell
duration in minutes. -/
structure Ramp where
  endTemp : ℚ
  interval : ℚ
deriving DecidableEq

/-- A reading as assembled by `MeasureProcess.read`: a timestamp plus the
chamber temperature, chamber humidity and Pt100 temperature. -/
structure Reading where
  t : ℚ
  temp : ℚ
  humid : ℚ
  pt100 : ℚ
deriving DecidableEq

/-- Abstract device and framework interactions, in program order. -/
inductive Event where
  | acquireCts
  | acquireMulti
  | releaseCts
  | releaseMulti
  | chamberOn
  | chamberOff
  | setpoint (value : ℚ)
  | readDevices (r : Reading)
  | stopCheck (result : Bool)
deriving DecidableEq

/-- A CSV cell: text (header) or a numeric value. -/
inductive Cell where
  | str (s : String)
  | num (q : ℚ)
deriving DecidableEq

/-- State threaded through one run: wall clock, how many readings and stop
checks have happened, the CSV file contents, the emitted readings and the
device-interaction trace. -/
structure St where
  clock : ℚ
  nReads : Nat
  nStops : Nat
  log : List (List Cell)
  emitted : List Reading
  trace : List Event
deriving DecidableEq

/-- The run's environment: what the devices answer on the n-th read, the
stop-request schedule, the chamber acknowledgements, the ramp table and the
start time. -/
structure Env where
  ctsTemp : Nat → ℚ
  ctsHumid : Nat → ℚ
  fetchFirst : Nat → List (String × ℚ)
  stopReq : Nat → Bool
  startAck : String
  stopAck : String
  ramps : List Ramp
  t0 : ℚ

/-- Python's `dict.get(key, default)` on an association list (the first
dictionary returned by `K2700.fetch`). -/
def dictGetD (d : List (String × ℚ)) (key : String) (dflt : ℚ) : ℚ :=
  match d.find? (fun p => p.fst == key) with
  | some p => p.snd
  | none => dflt

/-- The CSV row written for a reading: `writer.writerow([t, temp, humid, pt100])`. -/
def rowOf (r : Reading) : List Cell :=
  [Cell.num r.t, Cell.num r.temp, Cell.num r.humid, Cell.num r.pt100]

/-- The header row `'time cts_temp cts_humid pt100'.split()`. -/
def headerRow : List Cell :=
  [Cell.str "time", Cell.str "cts_temp", Cell.str "cts_humid", Cell.str "pt100"]

/-- `MeasureProcess.read`: read chamber temperature and humidity, fetch the
Pt100 value (defaulting to 0 when the `_C` field is absent), emit the
reading and append exactly one CSV row. -/
def read (env : Env) (s : St) : Reading × St :=
  let t := s.clock
  let temp := env.ctsTemp s.nReads
  let humid := env.ctsHumid s.nReads
  let pt100 := dictGetD (env.fetchFirst s.nReads) "_C" 0
  let r : Reading := { t := t, temp := temp, humid := humid, pt100 := pt100 }
  (r, { s with
        nReads := s.nReads + 1
        emitted := s.emitted ++ [r]
        log := s.log ++ [rowOf r]
        trace := s.trace ++ [Event.readDevices r] })

/-- `self.stopRequested()`. -/
def stopRequested (env : Env) (s : St) : Bool × St :=
  let b := env.stopReq s.nStops
  (b, { s with nStops := s.nStops + 1, trace := s.trace ++ [Event.stopCheck b] })

/-- `time.sleep(self.poll_interval)`. -/
def sleep (s : St) : St := { s with clock := s.clock + poll_interval }

/-- The (negated) guard of the convergence loop:
`(end_temp - self.offset) <= current_temp <= (end_temp + self.offset)`. -/
def convergedB (endTemp current : ℚ) : Bool :=
  decide (endTemp - offset ≤ current) && decide (current ≤ endTemp + offset)

/-- The `while not ... <= current_temp <= ...` loop of
`MeasureProcess.measure`, with explicit fuel.  Returns `none` on fuel
exhaustion, `some (none, s)` when a stop request was observed (the early
`return`), and `some (some r, s)` when the tolerance band is satisfied,
`r` being the reading bound to the loop variable on exit. -/
def convergeLoop (env : Env) (endTemp : ℚ) : Nat → Reading → St → Option (Option Reading × St)
  | 0, _, _ => none
  | fuel + 1, reading, s =>
    if convergedB endTemp reading.temp then
      some (some reading, s)
    else
      let rs := read env s
      let bs := stopRequested env rs.snd
      if bs.fst then
        some (none, bs.snd)
      else
        convergeLoop env endTemp fuel rs.fst (sleep bs.snd)

/-- The `while time.time() < time_end` dwell loop of
`MeasureProcess.measure`.  The reading taken in the body is discarded (the
source does not bind it).  The boolean is true when a stop request cut the
loop short. -/
def dwellLoop (env : Env) (timeEnd : ℚ) : Nat → St → Option (Bool × St)
  | 0, _ => none
  | fuel + 1, s =>
    if s.clock < timeEnd then
      let s1 := (read env s).snd
      let bs := stopRequested env s1
      if bs.fst then
        some (true, bs.snd)
      else
        dwellLoop env timeEnd fuel (sleep bs.snd)
    else
      some (false, s)

/-- `cts.setAnalogChannel(1, end_temp)`. -/
def sendSetpoint (value : ℚ) (s : St) : St :=
  { s with trace := s.trace ++ [Event.setpoint value] }

/-- The `for i, ramp in enumerate(ramps)` loop of `MeasureProcess.measure`:
send the end temperature as the single setpoint, run the convergence loop
on the reading bound before the loop, then the dwell loop whose deadline is
`time.time() + ramp.get('interval') * 60`. -/
def rampLoop (env : Env) (fuel : Nat) : List Ramp → Reading → St → Option (Bool × St)
  | [], _, s => some (false, s)
  | ramp :: rest, reading, s =>
    let s0 := sendSetpoint ramp.endTemp s
    match convergeLoop env ramp.endTemp fuel reading s0 with
    | none => none
    | some (none, s1) => some (true, s1)
    | some (some reading1, s1) =>
      match dwellLoop env (s1.clock + ramp.interval * 60) fuel s1 with
      | none => none
      | some (true, s2) => some (true, s2)
      | some (false, s2) => rampLoop env fuel rest reading1 s2

/-- `MeasureProcess.measure`: write the CSV header, take the initial
reading, then loop over the ramp table.  The boolean is true when the body
returned early on a stop request. -/
def measure (env : Env) (fuel : Nat) (s : St) : Option (Bool × St) :=
  let sh := { s with log := s.log ++ [headerRow] }
  let rs := read env sh
  rampLoop env fuel env.ramps rs.fst rs.snd

/-- How one run ends: normal return or a raised `RuntimeError`. -/
inductive Outcome where
  | ok
  | failed (msg : String)
deriving DecidableEq

/-- The observable result of one `MeasureProcess.run`: its outcome, whether
`measure` returned early on a stop request, and the final state. -/
structure RunResult where
  outcome : Outcome
  cancelled : Bool
  st : St
deriving DecidableEq

/-- Exit of the `with ITC(...) as cts, K2700(...) as multi` block: the two
contexts are closed in reverse order of entry, on every path. -/
def releaseDevices (s : St) : St :=
  { s with trace := s.trace ++ [Event.releaseMulti, Event.releaseCts] }

/-- The state of a run right after the `with ITC(...) as cts, K2700(...) as
multi` acquisitions and the chamber ON query of `cts.start()`: a fresh CSV
file, counters at zero, clock at the start time. -/
def stBase (env : Env) : St :=
  { clock := env.t0, nReads := 0, nStops := 0, log := [], emitted := [],
    trace := [Event.acquireCts, Event.acquireMulti, Event.chamberOn] }

/-- `MeasureProcess.run`: acquire both devices, `cts.start()` (raising
`RuntimeError` when the acknowledgement is not `"s1"`), `measure`, then
`cts.stop()` (again checking the acknowledgement); the `with` block
releases both devices on every path. -/
def run (env : Env) (fuel : Nat) : Option RunResult :=
  if env.startAck = "s1" then
    match measure env fuel (stBase env) with
    | none => none
    | some (stopped, s3) =>
      let s4 := { s3 with trace := s3.trace ++ [Event.chamberOff] }
      if env.stopAck = "s1" then
        some { outcome := Outcome.ok, cancelled := stopped, st := releaseDevices s4 }
      else
        some { outcome := Outcome.failed "Failed to stop", cancelled := stopped, st := releaseDevices s4 }
  else
    some { outcome := Outcome.failed "Failed to start", cancelled := false, st := releaseDevices (stBase env) }

/-- The setpoint values sent to the chamber, in order. -/
def setpointsOf (tr : List Event) : List ℚ :=
  tr.filterMap (fun e => match e with | Event.setpoint v => some v | _ => none)

/-- The chamber temperatures of the readings taken, in order. -/
def readTempsOf (tr : List Event) : List ℚ :=
  tr.filterMap (fun e => match e with | Event.readDevices r => some r.temp | _ => none)

/-- Trace of a possibly exhausted run. -/
def traceOf (o : Option RunResult) : List Event :=
  match o with
  | some res => res.st.trace
  | none => []

/-- Acquisition / release events of the `with` block. -/
def isAcqRel : Event → Bool
  | Event.acquireCts => true
  | Event.acquireMulti => true
  | Event.releaseCts => true
  | Event.releaseMulti => true
  | _ => false

/-- Is this a setpoint write? -/
def isSetpointEv : Event → Bool
  | Event.setpoint _ => true
  | _ => false

/-- The events strictly after the last setpoint write. -/
def afterLastSetpointEvents (tr : List Event) : List Event :=
  (tr.reverse.takeWhile (fun e => !(isSetpointEv e))).reverse

/-- The events up to and including the last setpoint write. -/
def beforeLastSetpointEvents (tr : List Event) : List Event :=
  (tr.reverse.dropWhile (fun e => !(isSetpointEv e))).reverse

/-- The events strictly after the first stop check that returned true. -/
def afterFirstTrueStop (tr : List Event) : List Event :=
  (tr.dropWhile (fun e => !(e == Event.stopCheck true))).drop 1

/-- No stop check in this event list returned true. -/
def noTrueStop (l : List Event) : Prop := Event.stopCheck true ∉ l

/-- The list ends with the (only) stop check that returned true. -/
def endsTrueStop (l : List Event) : Prop :=
  ∃ p, l = p ++ [Event.stopCheck true] ∧ Event.stopCheck true ∉ p

/-- An empty initial state, for exercising the loops directly. -/
def stInit : St :=
  { clock := 0, nReads := 0, nStops := 0, log := [], emitted := [], trace := [] }

/-- Spec scenario A: one ramp to 30 degC with a one-minute dwell; the
chamber reports 20 degC on the initial reading and 30 degC afterwards. -/
def envScenA : Env :=
  { ctsTemp := fun n => if n = 0 then 20 else 30
    ctsHumid := fun _ => 0
    fetchFirst := fun _ => []
    stopReq := fun _ => false
    startAck := "s1", stopAck := "s1"
    ramps := [{ endTemp := 30, interval := 1 }]
    t0 := 0 }

/-- Two ramps to 30 degC; the chamber reaches 30 degC on the first
convergence poll but drifts to 25 degC during the first dwell. -/
def envC8 : Env :=
  { ctsTemp := fun n => if n = 0 then 20 else if n = 1 then 30 else 25
    ctsHumid := fun _ => 0
    fetchFirst := fun _ => []
    stopReq := fun _ => false
    startAck := "s1", stopAck := "s1"
    ramps := [{ endTemp := 30, interval := 1 }, { endTemp := 30, interval := 0 }]
    t0 := 0 }

/-- A run whose very first stop check requests cancellation while the
chamber is still far from the 30 degC target. -/
def envCancel : Env :=
  { ctsTemp := fun _ => 20
    ctsHumid := fun _ => 0
    fetchFirst := fun _ => []
    stopReq := fun _ => true
    startAck := "s1", stopAck := "s1"
    ramps := [{ endTemp := 30, interval := 1 }]
    t0 := 0 }

/-- A run with an empty ramp table. -/
def envEmptyPlan : Env :=
  { ctsTemp := fun _ => 20
    ctsHumid := fun _ => 0
    fetchFirst := fun _ => []
    stopReq := fun _ => false
    startAck := "s1", stopAck := "s1"
    ramps := []
    t0 := 0 }

/-- A run where the chamber ON command is answered with a wrong
acknowledgement. -/
def envBadStart : Env :=
  { ctsTemp := fun _ => 0
    ctsHumid := fun _ => 0
    fetchFirst := fun _ => []
    stopReq := fun _ => false
    startAck := "xx", stopAck := "s1"
    ramps := []
    t0 := 0 }

/-- One ramp to 30 degC with zero dwell; the chamber is already at the
target. -/
def envOneStep : Env :=
  { ctsTemp := fun _ => 30
    ctsHumid := fun _ => 0
    fetchFirst := fun _ => []
    stopReq := fun _ => false
    startAck := "s1", stopAck := "s1"
    ramps := [{ endTemp := 30, interval := 0 }]
    t0 := 0 }

/-- One ramp to 30 degC with zero dwell; the chamber sits exactly at the
lower tolerance boundary 30 - offset = 29.9 degC. -/
def envBoundary : Env :=
  { ctsTemp := fun _ => 299/10
    ctsHumid := fun _ => 0
    fetchFirst := fun _ => []
    stopReq := fun _ => false
    startAck := "s1", stopAck := "s1"
    ramps := [{ endTemp := 30, interval := 0 }]
    t0 := 0 }

/-- A device environment with a constant 25 degC chamber and no stop
requests, for exercising the dwell loop directly. -/
def envPoll : Env :=
  { ctsTemp := fun _ => 25
    ctsHumid := fun _ => 0
    fetchFirst := fun _ => []
    stopReq := fun _ => false
    startAck := "s1", stopAck := "s1"
    ramps := []
    t0 := 0 }

/-- A reading observed at 30 degC. -/
def readingAt30 : Reading := { t := 0, temp := 30, humid := 0, pt100 := 0 }

/-- Expected result of `run envBadStart`. -/
def resBadStart : RunResult :=
  { outcome := Outcome.failed "Failed to start"
    cancelled := false
    st := { clock := 0, nReads := 0, nStops := 0, log := [], emitted := []
            trace := [Event.acquireCts, Event.acquireMulti, Event.chamberOn,
                      Event.releaseMulti, Event.releaseCts] } }

/-- Expected result of `run envCancel`. -/
def resCancel : RunResult :=
  { outcome := Outcome.ok
    cancelled := true
    st := { clock := 0, nReads := 2, nStops := 1
            log := [headerRow,
                    [Cell.num 0, Cell.num 20, Cell.num 0, Cell.num 0],
                    [Cell.num 0, Cell.num 20, Cell.num 0, Cell.num 0]]
            emitted := [{ t := 0, temp := 20, humid := 0, pt100 := 0 },
                        { t := 0, temp := 20, humid := 0, pt100 := 0 }]
            trace := [Event.acquireCts, Event.acquireMulti, Event.chamberOn,
                      Event.readDevices { t := 0, temp := 20, humid := 0, pt100 := 0 },
                      Event.setpoint 30,
                      Event.readDevices { t := 0, temp := 20, humid := 0, pt100 := 0 },
                      Event.stopCheck true,
                      Event.chamberOff, Event.releaseMulti, Event.releaseCts] } }

/-- Expected result of `run envOneStep`. -/
def resOneStep : RunResult :=
  { outcome := Outcome.ok
    cancelled := false
    st := { clock := 0, nReads := 1, nStops := 0
            log := [headerRow, [Cell.num 0, Cell.num 30, Cell.num 0, Cell.num 0]]
            emitted := [readingAt30]
            trace := [Event.acquireCts, Event.acquireMulti, Event.chamberOn,
                      Event.readDevices readingAt30,
                      Event.setpoint 30,
                      Event.chamberOff, Event.releaseMulti, Event.releaseCts] } }

/-- Expected result of `run envEmptyPlan`. -/
def resEmptyPlan : RunResult :=
  { outcome := Outcome.ok
    cancelled := false
    st := { clock := 0, nReads := 1, nStops := 0
            log := [headerRow, [Cell.num 0, Cell.num 20, Cell.num 0, Cell.num 0]]
            emitted := [{ t := 0, temp := 20, humid := 0, pt100 := 0 }]
            trace := [Event.acquireCts, Event.acquireMulti, Event.chamberOn,
                      Event.readDevices { t := 0, temp := 20, humid := 0, pt100 := 0 },
                      Event.chamberOff, Event.releaseMulti, Event.releaseCts] } }

/-- Expected final state of the ten-second dwell phase started from
`stInit` in `envPoll`. -/
def stPollDone : St :=
  { clock := 10, nReads := 1, nStops := 1
    log := [[Cell.num 0, Cell.num 25, Cell.num 0, Cell.num 0]]
    emitted := [{ t := 0, temp := 25, humid := 0, pt100 := 0 }]
    trace := [Event.setpoint 30,
              Event.readDevices { t := 0, temp := 25, humid := 0, pt100 := 0 },
              Event.stopCheck false] }

/-- An environment whose multimeter answer has no `_C` field. -/
def envNoC : Env :=
  { ctsTemp := fun _ => 21
    ctsHumid := fun _ => 45
    fetchFirst := fun _ => [("VDC", 1)]
    stopReq := fun _ => false
    startAck := "s1", stopAck := "s1"
    ramps := []
    t0 := 0 }

theorem setpointsOf_append (a b : List Event) :
    setpointsOf (a ++ b) = setpointsOf a ++ setpointsOf b :=
  List.filterMap_append a b _

theorem noTrueStop_append {a b : List Event} (ha : noTrueStop a) (hb : noTrueStop b) :
    noTrueStop (a ++ b) := by
  simp only [noTrueStop, List.mem_append] at *
  exact fun h => h.elim ha hb

theorem noTrueStop_nil : noTrueStop [] := by
  simp [noTrueStop]

theorem endsTrueStop_append {a b : List Event} (ha : noTrueStop a) (hb : endsTrueStop b) :
    endsTrueStop (a ++ b) := by
  obtain ⟨p, rfl, hp⟩ := hb
  refine ⟨a ++ p, by rw [List.append_assoc], ?_⟩
  simp only [noTrueStop] at ha
  simp only [List.mem_append]
  exact fun h => h.elim ha hp

theorem convergeLoop_ext (env : Env) (endTemp : ℚ) :
    ∀ (fuel : Nat) (reading : Reading) (s : St) (x : Option Reading) (s' : St),
      convergeLoop env endTemp fuel reading s = some (x, s') →
      ∃ ext new,
        s'.trace = s.trace ++ ext ∧
        s'.emitted = s.emitted ++ new ∧
        s'.log = s.log ++ new.map rowOf ∧
        (∀ e ∈ ext, isAcqRel e = false) ∧
        setpointsOf ext = [] ∧
        (x = none → endsTrueStop ext) ∧
        (x ≠ none → noTrueStop ext) := by
  intro fuel
  induction fuel with
  | zero => intro reading s x s' h; simp [convergeLoop] at h
  | succ fuel ih =>
    intro reading s x s' h
    simp only [convergeLoop] at h
    by_cases hc : convergedB endTemp reading.temp
    · rw [if_pos hc] at h
      simp only [Option.some.injEq, Prod.mk.injEq] at h
      obtain ⟨rfl, rfl⟩ := h
      exact ⟨[], [], by simp, by simp, by simp, by simp, by simp [setpointsOf],
        by simp, fun _ => noTrueStop_nil⟩
    · rw [if_neg hc] at h
      by_cases hb : (stopRequested env (read env s).snd).fst
      · rw [if_pos hb] at h
        simp only [Option.some.injEq, Prod.mk.injEq] at h
        obtain ⟨rfl, rfl⟩ := h
        have hbtrue : env.stopReq s.nStops = true := hb
        refine ⟨[Event.readDevices (read env s).fst, Event.stopCheck true], [(read env s).fst],
          ?_, ?_, ?_, ?_, ?_, ?_, ?_⟩
        · simp [stopRequested, read, hbtrue]
        · simp [stopRequested, read]
        · simp [stopRequested, read]
        · intro e he
          simp only [List.mem_cons, List.mem_singleton] at he
          rcases he with rfl | rfl | h0
          · rfl
          · rfl
          · cases h0
        · simp [setpointsOf]
        · intro _
          exact ⟨[Event.readDevices (read env s).fst], rfl, by simp⟩
        · intro hx; exact absurd rfl hx
      · rw [if_neg hb] at h
        obtain ⟨ext, new, h1, h2, h3, h4, h5, h6, h7⟩ :=
          ih (read env s).fst (sleep (stopRequested env (read env s).snd).snd) x s' h
        have hbfalse : env.stopReq s.nStops = false := by
          simpa [stopRequested, read] using hb
        refine ⟨Event.readDevices (read env s).fst :: Event.stopCheck false :: ext,
          (read env s).fst :: new, ?_, ?_, ?_, ?_, ?_, ?_, ?_⟩
        · rw [h1]; simp [sleep, stopRequested, read, hbfalse]
        · rw [h2]; simp [sleep, stopRequested, read]
        · rw [h3]; simp [sleep, stopRequested, read]
        · intro e he
          simp only [List.mem_cons] at he
          rcases he with rfl | rfl | hmem
          · rfl
          · rfl
          · exact h4 e hmem
        · simpa [setpointsOf] using h5
        · intro hx
          obtain ⟨p, hp, hpn⟩ := h6 hx
          refine ⟨Event.readDevices (read env s).fst :: Event.stopCheck false :: p,
            by rw [hp]; simp, ?_⟩
          simp only [List.mem_cons]
          rintro (h0 | h0 | h0)
          · cases h0
          · cases h0
          · exact hpn h0
        · intro hx
          have := h7 hx
          simp only [noTrueStop, List.mem_cons] at this ⊢
          rintro (h0 | h0 | h0)
          · cases h0
          · cases h0
          · exact this h0

theorem dwellLoop_ext (env : Env) (timeEnd : ℚ) :
    ∀ (fuel : Nat) (s : St) (flag : Bool) (s' : St),
      dwellLoop env timeEnd fuel s = some (flag, s') →
      ∃ ext new,
        s'.trace = s.trace ++ ext ∧
        s'.emitted = s.emitted ++ new ∧
        s'.log = s.log ++ new.map rowOf ∧
        (∀ e ∈ ext, isAcqRel e = false) ∧
        setpointsOf ext = [] ∧
        (flag = true → endsTrueStop ext) ∧
        (flag = false → noTrueStop ext) := by
  intro fuel
  induction fuel with
  | zero => intro s flag s' h; simp [dwellLoop] at h
  | succ fuel ih =>
    intro s flag s' h
    simp only [dwellLoop] at h
    by_cases hc : s.clock < timeEnd
    · rw [if_pos hc] at h
      by_cases hb : (stopRequested env (read env s).snd).fst
      · rw [if_pos hb] at h
        simp only [Option.some.injEq, Prod.mk.injEq] at h
        obtain ⟨rfl, rfl⟩ := h
        have hbtrue : env.stopReq s.nStops = true := hb
        refine ⟨[Event.readDevices (read env s).fst, Event.stopCheck true], [(read env s).fst],
          ?_, ?_, ?_, ?_, ?_, ?_, ?_⟩
        · simp [stopRequested, read, hbtrue]
        · simp [stopRequested, read]
        · simp [stopRequested, read]
        · intro e he
          simp only [List.mem_cons, List.mem_singleton] at he
          rcases he with rfl | rfl | h0
          · rfl
          · rfl
          · cases h0
        · simp [setpointsOf]
        · intro _
          exact ⟨[Event.readDevices (read env s).fst], rfl, by simp⟩
        · intro hx; cases hx
      · rw [if_neg hb] at h
        obtain ⟨ext, new, h1, h2, h3, h4, h5, h6, h7⟩ :=
          ih (sleep (stopRequested env (read env s).snd).snd) flag s' h
        have hbfalse : env.stopReq s.nStops = false := by
          simpa [stopRequested, read] using hb
        refine ⟨Event.readDevices (read env s).fst :: Event.stopCheck false :: ext,
          (read env s).fst :: new, ?_, ?_, ?_, ?_, ?_, ?_, ?_⟩
        · rw [h1]; simp [sleep, stopRequested, read, hbfalse]
        · rw [h2]; simp [sleep, stopRequested, read]
        · rw [h3]; simp [sleep, stopRequested, read]
        · intro e he
          simp only [List.mem_cons] at he
          rcases he with rfl | rfl | hmem
          · rfl
          · rfl
          · exact h4 e hmem
        · simpa [setpointsOf] using h5
        · intro hx
          obtain ⟨p, hp, hpn⟩ := h6 hx
          refine ⟨Event.readDevices (read env s).fst :: Event.stopCheck false :: p,
            by rw [hp]; simp, ?_⟩
          simp only [List.mem_cons]
          rintro (h0 | h0 | h0)
          · cases h0
          · cases h0
          · exact hpn h0
        · intro hx
          have := h7 hx
          simp only [noTrueStop, List.mem_cons] at this ⊢
          rintro (h0 | h0 | h0)
          · cases h0
          · cases h0
          · exact this h0
    · rw [if_neg hc] at h
      simp only [Option.some.injEq, Prod.mk.injEq] at h
      obtain ⟨rfl, rfl⟩ := h
      exact ⟨[], [], by simp, by simp, by simp, by simp, by simp [setpointsOf],
        by simp, fun _ => noTrueStop_nil⟩

theorem rampLoop_ext (env : Env) (fuel : Nat) :
    ∀ (rs : List Ramp) (reading : Reading) (s : St) (flag : Bool) (s' : St),
      rampLoop env fuel rs reading s = some (flag, s') →
      ∃ ext new,
        s'.trace = s.trace ++ ext ∧
        s'.emitted = s.emitted ++ new ∧
        s'.log = s.log ++ new.map rowOf ∧
        (∀ e ∈ ext, isAcqRel e = false) ∧
        (flag = false → setpointsOf ext = rs.map Ramp.endTemp) ∧
        (flag = false → noTrueStop ext) ∧
        (flag = true → endsTrueStop ext) := by
  intro rs
  induction rs with
  | nil =>
    intro reading s flag s' h
    simp only [rampLoop, Option.some.injEq, Prod.mk.injEq] at h
    obtain ⟨rfl, rfl⟩ := h
    exact ⟨[], [], by simp, by simp, by simp, by simp, fun _ => by simp [setpointsOf],
      fun _ => noTrueStop_nil, by simp⟩
  | cons ramp rest ih =>
    intro reading s flag s' h
    simp only [rampLoop] at h
    cases hcv : convergeLoop env ramp.endTemp fuel reading (sendSetpoint ramp.endTemp s) with
    | none => rw [hcv] at h; cases h
    | some pr =>
      obtain ⟨x, s1⟩ := pr
      rw [hcv] at h
      obtain ⟨ext1, new1, c1, c2, c3, c4, c5, c6, c7⟩ :=
        convergeLoop_ext env ramp.endTemp fuel reading (sendSetpoint ramp.endTemp s) x s1 hcv
      cases x with
      | none =>
        simp only [Option.some.injEq, Prod.mk.injEq] at h
        obtain ⟨rfl, rfl⟩ := h
        refine ⟨Event.setpoint ramp.endTemp :: ext1, new1, ?_, ?_, ?_, ?_, ?_, ?_, ?_⟩
        · rw [c1]; simp [sendSetpoint]
        · rw [c2]; simp [sendSetpoint]
        · rw [c3]; simp [sendSetpoint]
        · intro e he
          simp only [List.mem_cons] at he
          rcases he with rfl | hmem
          · rfl
          · exact c4 e hmem
        · intro hx; cases hx
        · intro hx; cases hx
        · intro _
          have h6 := c6 rfl
          obtain ⟨p, hp, hpn⟩ := h6
          refine ⟨Event.setpoint ramp.endTemp :: p, by rw [hp]; simp, ?_⟩
          simp only [List.mem_cons]
          rintro (h0 | h0)
          · cases h0
          · exact hpn h0
      | some reading1 =>
        dsimp only at h
        cases hdw : dwellLoop env (s1.clock + ramp.interval * 60) fuel s1 with
        | none => rw [hdw] at h; cases h
        | some pr2 =>
          obtain ⟨dflag, s2⟩ := pr2
          rw [hdw] at h
          obtain ⟨ext2, new2, d1, d2, d3, d4, d5, d6, d7⟩ :=
            dwellLoop_ext env (s1.clock + ramp.interval * 60) fuel s1 dflag s2 hdw
          have hcnostop : noTrueStop ext1 := c7 (by simp)
          cases dflag with
          | true =>
            simp only [Option.some.injEq, Prod.mk.injEq] at h
            obtain ⟨rfl, rfl⟩ := h
            refine ⟨Event.setpoint ramp.endTemp :: (ext1 ++ ext2), new1 ++ new2,
              ?_, ?_, ?_, ?_, ?_, ?_, ?_⟩
            · rw [d1, c1]; simp [sendSetpoint]
            · rw [d2, c2]; simp [sendSetpoint]
            · rw [d3, c3]; simp [sendSetpoint]
            · intro e he
              simp only [List.mem_cons, List.mem_append] at he
              rcases he with rfl | hmem | hmem
              · rfl
              · exact c4 e hmem
              · exact d4 e hmem
            · intro hx; cases hx
            · intro hx; cases hx
            · intro _
              have hends : endsTrueStop (ext1 ++ ext2) :=
                endsTrueStop_append hcnostop (d6 rfl)
              obtain ⟨p, hp, hpn⟩ := hends
              refine ⟨Event.setpoint ramp.endTemp :: p, by rw [hp]; simp, ?_⟩
              simp only [List.mem_cons]
              rintro (h0 | h0)
              · cases h0
              · exact hpn h0
          | false =>
            obtain ⟨ext3, new3, r1, r2, r3, r4, r5, r6, r7⟩ :=
              ih reading1 s2 flag s' h
            have hdnostop : noTrueStop ext2 := d7 rfl
            refine ⟨Event.setpoint ramp.endTemp :: (ext1 ++ ext2 ++ ext3),
              new1 ++ new2 ++ new3, ?_, ?_, ?_, ?_, ?_, ?_, ?_⟩
            · rw [r1, d1, c1]; simp [sendSetpoint]
            · rw [r2, d2, c2]; simp [sendSetpoint]
            · rw [r3, d3, c3]; simp [sendSetpoint]
            · intro e he
              simp only [List.mem_cons, List.mem_append] at he
              rcases he with rfl | (hmem | hmem) | hmem
              · rfl
              · exact c4 e hmem
              · exact d4 e hmem
              · exact r4 e hmem
            · intro hfl
              simp only [setpointsOf, List.filterMap_cons, List.filterMap_append]
              simp only [setpointsOf] at c5 d5 r5
              rw [c5, d5, r5 hfl]
              simp [List.map_cons]
            · intro hfl
              have h3 := r6 hfl
              have : noTrueStop (ext1 ++ ext2 ++ ext3) :=
                noTrueStop_append (noTrueStop_append hcnostop hdnostop) h3
              simp only [noTrueStop, List.mem_cons] at this ⊢
              rintro (h0 | h0)
              · cases h0
              · exact this h0
            · intro hfl
              have h3 := r7 hfl
              have hends : endsTrueStop (ext1 ++ ext2 ++ ext3) :=
                endsTrueStop_append (noTrueStop_append hcnostop hdnostop) h3
              obtain ⟨p, hp, hpn⟩ := hends
              refine ⟨Event.setpoint ramp.endTemp :: p, by rw [hp]; simp, ?_⟩
              simp only [List.mem_cons]
              rintro (h0 | h0)
              · cases h0
              · exact hpn h0

theorem measure_ext (env : Env) (fuel : Nat) (s : St) (flag : Bool) (s3 : St)
    (h : measure env fuel s = some (flag, s3)) :
    ∃ ext new,
      s3.trace = s.trace ++ ext ∧
      s3.emitted = s.emitted ++ new ∧
      s3.log = (s.log ++ [headerRow]) ++ new.map rowOf ∧
      (∀ e ∈ ext, isAcqRel e = false) ∧
      (flag = false → setpointsOf ext = env.ramps.map Ramp.endTemp) ∧
      (flag = false → noTrueStop ext) ∧
      (flag = true → endsTrueStop ext) := by
  simp only [measure] at h
  obtain ⟨ext, new, h1, h2, h3, h4, h5, h6, h7⟩ :=
    rampLoop_ext env fuel env.ramps
      (read env { s with log := s.log ++ [headerRow] }).fst
      (read env { s with log := s.log ++ [headerRow] }).snd flag s3 h
  refine ⟨Event.readDevices (read env { s with log := s.log ++ [headerRow] }).fst :: ext,
    (read env { s with log := s.log ++ [headerRow] }).fst :: new, ?_, ?_, ?_, ?_, ?_, ?_, ?_⟩
  · rw [h1]; simp [read]
  · rw [h2]; simp [read]
  · rw [h3]; simp [read]
  · intro e he
    simp only [List.mem_cons] at he
    rcases he with rfl | hmem
    · rfl
    · exact h4 e hmem
  · intro hfl
    simp only [setpointsOf, List.filterMap_cons]
    simp only [setpointsOf] at h5
    exact h5 hfl
  · intro hfl
    have := h6 hfl
    simp only [noTrueStop, List.mem_cons] at this ⊢
    rintro (h0 | h0)
    · cases h0
    · exact this h0
  · intro hfl
    obtain ⟨p, hp, hpn⟩ := h7 hfl
    refine ⟨Event.readDevices (read env { s with log := s.log ++ [headerRow] }).fst :: p,
      by rw [hp]; simp, ?_⟩
    simp only [List.mem_cons]
    rintro (h0 | h0)
    · cases h0
    · exact hpn h0

theorem run_cases (env : Env) (fuel : Nat) (res : RunResult)
    (h : run env fuel = some res) :
    (env.startAck ≠ "s1" ∧
      res = ⟨Outcome.failed "Failed to start", false, releaseDevices (stBase env)⟩) ∨
    (env.startAck = "s1" ∧ ∃ stopped s3,
      measure env fuel (stBase env) = some (stopped, s3) ∧
      res.cancelled = stopped ∧
      res.st = releaseDevices { s3 with trace := s3.trace ++ [Event.chamberOff] } ∧
      res.outcome = (if env.stopAck = "s1" then Outcome.ok else Outcome.failed "Failed to stop")) := by
  by_cases hs : env.startAck = "s1"
  · right
    refine ⟨hs, ?_⟩
    simp only [run, hs, if_true] at h
    cases hm : measure env fuel (stBase env) with
    | none => rw [hm] at h; cases h
    | some pr =>
      obtain ⟨stopped, s3⟩ := pr
      rw [hm] at h
      dsimp only at h
      refine ⟨stopped, s3, rfl, ?_, ?_, ?_⟩
      · by_cases ht : env.stopAck = "s1" <;>
          simp only [ht, if_true, if_false, Option.some.injEq] at h <;>
          rw [← h]
      · by_cases ht : env.stopAck = "s1" <;>
          simp only [ht, if_true, if_false, Option.some.injEq] at h <;>
          rw [← h]
      · by_cases ht : env.stopAck = "s1" <;>
          simp only [ht, if_true, if_false, Option.some.injEq] at h <;>
          rw [← h] <;> simp [ht]
  · left
    refine ⟨hs, ?_⟩
    simp only [run, hs, if_false] at h
    exact (Option.some.inj h).symm

theorem dwellLoop_clock (env : Env) (timeEnd : ℚ) :
    ∀ (fuel : Nat) (s : St) (s' : St),
      dwellLoop env timeEnd fuel s = some (false, s') →
      timeEnd ≤ s'.clock ∧
      s.nReads ≤ s'.nReads ∧
      s'.clock = s.clock + 10 * ((s'.nReads : ℚ) - (s.nReads : ℚ)) ∧
      (s.nReads < s'.nReads → s'.clock - 10 < timeEnd) := by
  intro fuel
  induction fuel with
  | zero => intro s s' h; simp [dwellLoop] at h
  | succ fuel ih =>
    intro s s' h
    simp only [dwellLoop] at h
    by_cases hc : s.clock < timeEnd
    · rw [if_pos hc] at h
      by_cases hb : (stopRequested env (read env s).snd).fst
      · rw [if_pos hb] at h
        simp only [Option.some.injEq, Prod.mk.injEq] at h
        exact absurd h.1 (by simp)
      · rw [if_neg hb] at h
        obtain ⟨ih1, ih2, ih3, ih4⟩ := ih (sleep (stopRequested env (read env s).snd).snd) s' h
        have hclock : (sleep (stopRequested env (read env s).snd).snd).clock = s.clock + 10 := by
          simp [sleep, stopRequested, read, poll_interval]
        have hreads : (sleep (stopRequested env (read env s).snd).snd).nReads = s.nReads + 1 := by
          simp [sleep, stopRequested, read]
        rw [hreads] at ih2 ih4
        rw [hclock, hreads] at ih3
        refine ⟨ih1, by omega, ?_, ?_⟩
        · rw [ih3]; push_cast; ring
        · intro _
          rcases Nat.lt_or_ge (s.nReads + 1) s'.nReads with hlt | hge
          · exact ih4 hlt
          · have heq : s'.nReads = s.nReads + 1 := le_antisymm hge ih2
            rw [heq] at ih3
            simp only [sub_self, mul_zero, add_zero] at ih3
            rw [ih3]
            linarith
    · rw [if_neg hc] at h
      simp only [Option.some.injEq, Prod.mk.injEq] at h
      obtain ⟨-, rfl⟩ := h
      refine ⟨not_lt.mp hc, le_refl _, by simp, ?_⟩
      intro hlt
      exact absurd hlt (lt_irrefl _)

/-- Claim C1, counterexample: for the spec scenario A plan
(one ramp to 30 degC, dwell one minute) starting at 20 degC, the setpoint
sequence actually sent to the chamber is `[30]`, not `[25, 30]`: the
controller sends the end temperature directly, with no intermediate steps. -/
theorem cx_C1 :
    setpointsOf (traceOf (run envScenA 40)) = [(30 : ℚ)] ∧
    setpointsOf (traceOf (run envScenA 40)) ≠ [(25 : ℚ), 30] := by
  constructor <;> decide

/-- Claim C1, amended: for every run that completes without cancellation,
the controller sends exactly one setpoint per ramp step, namely the step's
end temperature, so the full setpoint sequence is the list of end
temperatures of the plan in order. -/
theorem thm_C1 (env : Env) (fuel : Nat) (res : RunResult)
    (hack : env.startAck = "s1") (h : run env fuel = some res)
    (hnc : res.cancelled = false) :
    setpointsOf res.st.trace = env.ramps.map Ramp.endTemp := by
  rcases run_cases env fuel res h with ⟨hs, -⟩ | ⟨-, stopped, s3, hm, hcanc, hst, -⟩
  · exact absurd hack hs
  · have hstop : stopped = false := by rw [← hcanc]; exact hnc
    subst hstop
    obtain ⟨ext, new, h1, -, -, -, h5, -, -⟩ := measure_ext env fuel (stBase env) false s3 hm
    rw [hst]
    show setpointsOf ((s3.trace ++ [Event.chamberOff]) ++ [Event.releaseMulti, Event.releaseCts]) = _
    rw [setpointsOf_append, setpointsOf_append, h1, setpointsOf_append, h5 rfl]
    simp [setpointsOf, stBase]

/-- Witness for the amended C1 at a concrete one-ramp run. -/
theorem thm_C1_witness :
    setpointsOf resOneStep.st.trace = envOneStep.ramps.map Ramp.endTemp :=
  thm_C1 envOneStep 2 resOneStep rfl (by decide) rfl

/-- Claim C2, counterexample: a reading exactly at `setpoint - offset`
(29.9 degC for a 30 degC setpoint) IS accepted as converged, while the
claim says it must not be; in `envBoundary` the boundary reading is
accepted with no further poll (one single reading in the whole run). -/
theorem cx_C2 :
    (299/10 : ℚ) = 30 - offset ∧
    convergedB 30 (299/10) = true ∧
    readTempsOf (traceOf (run envBoundary 3)) = [(299/10 : ℚ)] := by
  refine ⟨by norm_num [offset], by decide, by decide⟩

/-- Claim C2, amended: the convergence test is a CLOSED interval: readings
exactly at `setpoint - offset` or `setpoint + offset` ARE accepted as
converged, a reading exactly at the setpoint is accepted, and an accepted
reading makes the convergence loop exit at once, with no further poll and
no state change. -/
theorem thm_C2 :
    (∀ e : ℚ, convergedB e (e - offset) = true ∧ convergedB e e = true ∧
      convergedB e (e + offset) = true) ∧
    (∀ (env : Env) (endTemp : ℚ) (fuel : Nat) (r : Reading) (s : St),
      convergedB endTemp r.temp = true →
      convergeLoop env endTemp (fuel + 1) r s = some (some r, s)) := by
  constructor
  · intro e
    simp only [convergedB, Bool.and_eq_true, decide_eq_true_eq, offset]
    refine ⟨⟨by linarith, by linarith⟩, ⟨by linarith, by linarith⟩, ⟨by linarith, by linarith⟩⟩
  · intro env endTemp fuel r s hconv
    simp [convergeLoop, hconv]

/-- Witness for the amended C2 at the concrete boundary reading 29.9. -/
theorem thm_C2_witness :
    convergedB 30 (30 - offset) = true ∧
    convergeLoop envBoundary 30 1 { t := 0, temp := 299/10, humid := 0, pt100 := 0 } stInit =
      some (some { t := 0, temp := 299/10, humid := 0, pt100 := 0 }, stInit) :=
  ⟨(thm_C2.1 30).1, thm_C2.2 envBoundary 30 0 _ stInit (by decide)⟩

/-- Claim C3, counterexample: in `envCancel` the cancellation flag is
observed true (the `stopCheck true` event) and the chamber power-off
command is nevertheless issued afterwards: chamber power IS forced off on
cancellation. -/
theorem cx_C3 :
    traceOf (run envCancel 5) =
      [Event.acquireCts, Event.acquireMulti, Event.chamberOn,
       Event.readDevices { t := 0, temp := 20, humid := 0, pt100 := 0 },
       Event.setpoint 30,
       Event.readDevices { t := 0, temp := 20, humid := 0, pt100 := 0 },
       Event.stopCheck true,
       Event.chamberOff, Event.releaseMulti, Event.releaseCts] ∧
    Event.chamberOff ∈ afterFirstTrueStop (traceOf (run envCancel 5)) := by
  constructor <;> decide

/-- Claim C3, amended: once the cancellation flag is observed true, no
further reading or setpoint write occurs, but the run still issues the
chamber power-off command and then releases both devices: the events after
the (unique) true stop check are exactly chamber OFF and the two
releases. -/
theorem thm_C3 (env : Env) (fuel : Nat) (res : RunResult)
    (h : run env fuel = some res) (hc : res.cancelled = true) :
    ∃ pre, res.st.trace =
        pre ++ [Event.stopCheck true, Event.chamberOff, Event.releaseMulti, Event.releaseCts] ∧
      Event.stopCheck true ∉ pre := by
  rcases run_cases env fuel res h with ⟨-, rfl⟩ | ⟨-, stopped, s3, hm, hcanc, hst, -⟩
  · exact Bool.noConfusion hc
  · have hstop : stopped = true := by rw [← hcanc]; exact hc
    subst hstop
    obtain ⟨ext, new, h1, -, -, -, -, -, h7⟩ := measure_ext env fuel (stBase env) true s3 hm
    obtain ⟨p, hp, hpn⟩ := h7 rfl
    refine ⟨(stBase env).trace ++ p, ?_, ?_⟩
    · rw [hst]
      show (s3.trace ++ [Event.chamberOff]) ++ [Event.releaseMulti, Event.releaseCts] = _
      rw [h1, hp]
      simp [stBase]
    · intro hmem
      rcases List.mem_append.mp hmem with h0 | h0
      · simp [stBase] at h0
      · exact hpn h0

/-- Witness for the amended C3 at the concrete cancelled run. -/
theorem thm_C3_witness :
    ∃ pre, resCancel.st.trace =
        pre ++ [Event.stopCheck true, Event.chamberOff, Event.releaseMulti, Event.releaseCts] ∧
      Event.stopCheck true ∉ pre :=
  thm_C3 envCancel 5 resCancel (by decide) rfl

/-- Claim C4, counterexample: a run with an empty ramp plan is NOT
rejected: it proceeds, issues the chamber ON command and takes one
reading. -/
theorem cx_C4 :
    run envEmptyPlan 1 = some resEmptyPlan ∧
    Event.chamberOn ∈ resEmptyPlan.st.trace ∧
    resEmptyPlan.st.emitted.length = 1 := by
  refine ⟨by decide, by decide, by decide⟩

/-- Claim C4, amended: there is no plan validation; for an empty ramp
plan the run proceeds normally: chamber ON is issued, exactly one (the
initial) reading is taken, no setpoint is ever written, and the run
completes with outcome ok. -/
theorem thm_C4 (env : Env) (fuel : Nat) (res : RunResult)
    (hempty : env.ramps = []) (hon : env.startAck = "s1") (hoff : env.stopAck = "s1")
    (h : run env fuel = some res) :
    res.outcome = Outcome.ok ∧
    res.cancelled = false ∧
    Event.chamberOn ∈ res.st.trace ∧
    (readTempsOf res.st.trace).length = 1 ∧
    setpointsOf res.st.trace = [] := by
  have hmeas : measure env fuel (stBase env) =
      some (false, (read env { stBase env with log := (stBase env).log ++ [headerRow] }).snd) := by
    simp [measure, hempty, rampLoop]
  rw [run, if_pos hon, hmeas] at h
  dsimp only at h
  rw [if_pos hoff] at h
  obtain rfl := (Option.some.inj h).symm
  refine ⟨rfl, rfl, ?_, rfl, rfl⟩
  simp [releaseDevices, stBase, read]

/-- Witness for the amended C4 at the concrete empty-plan run. -/
theorem thm_C4_witness :
    resEmptyPlan.outcome = Outcome.ok ∧
    resEmptyPlan.cancelled = false ∧
    Event.chamberOn ∈ resEmptyPlan.st.trace ∧
    (readTempsOf resEmptyPlan.st.trace).length = 1 ∧
    setpointsOf resEmptyPlan.st.trace = [] :=
  thm_C4 envEmptyPlan 1 resEmptyPlan rfl rfl rfl (by decide)

/-- Claim C5: when the chamber power-on acknowledgement does not match
`"s1"`, the run fails with "Failed to start" before any reading is taken
and before any setpoint is written (no ramp step of the plan is consumed);
the trace holds only the acquisitions, the ON query and the releases. -/
theorem thm_C5 (env : Env) (fuel : Nat) (res : RunResult)
    (hack : env.startAck ≠ "s1") (h : run env fuel = some res) :
    res.outcome = Outcome.failed "Failed to start" ∧
    readTempsOf res.st.trace = [] ∧
    setpointsOf res.st.trace = [] ∧
    res.st.emitted = [] ∧
    res.st.trace = [Event.acquireCts, Event.acquireMulti, Event.chamberOn,
                    Event.releaseMulti, Event.releaseCts] := by
  rcases run_cases env fuel res h with ⟨-, rfl⟩ | ⟨hs, -⟩
  · exact ⟨rfl, rfl, rfl, rfl, rfl⟩
  · exact absurd hs hack

/-- Witness for C5 at the concrete bad-acknowledgement run. -/
theorem thm_C5_witness :
    resBadStart.outcome = Outcome.failed "Failed to start" ∧
    readTempsOf resBadStart.st.trace = [] ∧
    setpointsOf resBadStart.st.trace = [] ∧
    resBadStart.st.emitted = [] ∧
    resBadStart.st.trace = [Event.acquireCts, Event.acquireMulti, Event.chamberOn,
                            Event.releaseMulti, Event.releaseCts] :=
  thm_C5 envBadStart 1 resBadStart (by decide) (by decide)

/-- Claim C6: `read` appends exactly one CSV line per reading, with the
cells in the fixed order timestamp, chamber temperature, chamber humidity,
Pt100 temperature (the log is only ever extended); and at the end of every
run that got past the chamber ON command, the log is the header followed by
exactly one such row per emitted reading, in order. -/
theorem thm_C6 :
    (∀ (env : Env) (s : St),
      (read env s).snd.log = s.log ++
        [[Cell.num (read env s).fst.t, Cell.num (read env s).fst.temp,
          Cell.num (read env s).fst.humid, Cell.num (read env s).fst.pt100]]) ∧
    (∀ (env : Env) (fuel : Nat) (res : RunResult),
      env.startAck = "s1" → run env fuel = some res →
      res.st.log = headerRow :: res.st.emitted.map rowOf) := by
  constructor
  · intro env s; rfl
  · intro env fuel res hon h
    rcases run_cases env fuel res h with ⟨hs, -⟩ | ⟨-, stopped, s3, hm, -, hst, -⟩
    · exact absurd hon hs
    · obtain ⟨ext, new, -, h2, h3, -, -, -, -⟩ := measure_ext env fuel (stBase env) stopped s3 hm
      rw [hst]
      show s3.log = headerRow :: s3.emitted.map rowOf
      rw [h3, h2]
      simp [stBase]

/-- Witness for C6 at the concrete one-ramp run. -/
theorem thm_C6_witness :
    resOneStep.st.log = headerRow :: resOneStep.st.emitted.map rowOf :=
  thm_C6.2 envOneStep 2 resOneStep rfl (by decide)

/-- Claim C7: on every run termination — normal completion, failure
(start or stop acknowledgement mismatch) or cancellation — the trace
begins with the two acquisitions (chamber first, then multimeter) and ends
with the two releases in reverse order (multimeter first, then chamber),
with no acquisition or release in between. -/
theorem thm_C7 (env : Env) (fuel : Nat) (res : RunResult)
    (h : run env fuel = some res) :
    ∃ mid, res.st.trace =
        Event.acquireCts :: Event.acquireMulti ::
          (mid ++ [Event.releaseMulti, Event.releaseCts]) ∧
      ∀ e ∈ mid, isAcqRel e = false := by
  rcases run_cases env fuel res h with ⟨-, rfl⟩ | ⟨-, stopped, s3, hm, -, hst, -⟩
  · exact ⟨[Event.chamberOn], rfl, by decide⟩
  · obtain ⟨ext, new, h1, -, -, h4, -, -, -⟩ := measure_ext env fuel (stBase env) stopped s3 hm
    refine ⟨Event.chamberOn :: (ext ++ [Event.chamberOff]), ?_, ?_⟩
    · rw [hst]
      show (s3.trace ++ [Event.chamberOff]) ++ [Event.releaseMulti, Event.releaseCts] = _
      rw [h1]
      simp [stBase]
    · intro e he
      simp only [List.mem_cons, List.mem_append] at he
      rcases he with rfl | hmem | rfl | h0
      · rfl
      · exact h4 e hmem
      · rfl
      · cases h0

/-- Witness for C7 at the concrete failed-start run. -/
theorem thm_C7_witness :
    ∃ mid, resBadStart.st.trace =
        Event.acquireCts :: Event.acquireMulti ::
          (mid ++ [Event.releaseMulti, Event.releaseCts]) ∧
      ∀ e ∈ mid, isAcqRel e = false :=
  thm_C7 envBadStart 1 resBadStart (by decide)

/-- Claim C8, counterexample: in `envC8` the controller enters the second
ramp step carrying the reading captured in the first step's convergence
loop (30 degC) although the chronologically last reading taken (during the
first dwell) was 25 degC, which is outside the tolerance band of the
second step's 30 degC target; consequently no reading at all is taken
after the second setpoint is sent, where the claim would require at least
one more poll. -/
theorem cx_C8 :
    readTempsOf (afterLastSetpointEvents (traceOf (run envC8 50))) = [] ∧
    (readTempsOf (beforeLastSetpointEvents (traceOf (run envC8 50)))).getLast? =
      some (25 : ℚ) ∧
    convergedB 30 25 = false := by
  refine ⟨by decide, by decide, by decide⟩

/-- Claim C8, amended: on entry to a ramp step the convergence decision
uses the reading last bound by the controller — the initial reading or the
final reading of the most recent convergence loop — not the
chronologically last reading taken (dwell readings are discarded).  When
that captured reading lies inside the tolerance band, the controller
passes straight from sending the setpoint to the dwell loop, taking no new
reading in between, and carries the same stale reading into the next
step. -/
theorem thm_C8 (env : Env) (g : Nat) (ramp : Ramp) (rest : List Ramp)
    (r : Reading) (s : St) (hconv : convergedB ramp.endTemp r.temp = true) :
    rampLoop env (g + 1) (ramp :: rest) r s =
      (match dwellLoop env ((sendSetpoint ramp.endTemp s).clock + ramp.interval * 60) (g + 1)
          (sendSetpoint ramp.endTemp s) with
       | none => none
       | some (true, s2) => some (true, s2)
       | some (false, s2) => rampLoop env (g + 1) rest r s2) := by
  simp only [rampLoop, convergeLoop, hconv, if_true]

/-- Witness for the amended C8 at a concrete converged step. -/
theorem thm_C8_witness :
    rampLoop envOneStep 1 [{ endTemp := 30, interval := 0 }] readingAt30 stInit =
      (match dwellLoop envOneStep ((sendSetpoint (30 : ℚ) stInit).clock + (0 : ℚ) * 60) 1
          (sendSetpoint (30 : ℚ) stInit) with
       | none => none
       | some (true, s2) => some (true, s2)
       | some (false, s2) => rampLoop envOneStep 1 [] readingAt30 s2) :=
  thm_C8 envOneStep 0 { endTemp := 30, interval := 0 } [] readingAt30 stInit (by decide)

/-- Claim C9: the dwell phase of a ramp step runs against the deadline
`clock at dwell entry + interval * 60` — the plan's dwell interval is in
minutes and converted to seconds.  For a step whose captured reading is
already in band (so the dwell starts at the step's entry clock), the dwell
only ends once the clock has advanced past `interval * 60` seconds, the
clock advances by exactly the 10-second poll interval per dwell reading,
and the loop exits on the first poll tick at or past the deadline. -/
theorem thm_C9 (env : Env) (fuel : Nat) (ramp : Ramp) (r : Reading) (s s' : St)
    (hconv : convergedB ramp.endTemp r.temp = true)
    (h : rampLoop env fuel [ramp] r s = some (false, s')) :
    s.clock + ramp.interval * 60 ≤ s'.clock ∧
    s.nReads ≤ s'.nReads ∧
    s'.clock = s.clock + 10 * ((s'.nReads : ℚ) - (s.nReads : ℚ)) ∧
    (s.nReads < s'.nReads → s'.clock - 10 < s.clock + ramp.interval * 60) := by
  cases fuel with
  | zero => simp [rampLoop, convergeLoop] at h
  | succ g =>
    simp only [rampLoop, convergeLoop, hconv, if_true] at h
    cases hdw : dwellLoop env ((sendSetpoint ramp.endTemp s).clock + ramp.interval * 60) (g + 1)
        (sendSetpoint ramp.endTemp s) with
    | none => rw [hdw] at h; cases h
    | some pr =>
      obtain ⟨flag, s2⟩ := pr
      rw [hdw] at h
      cases flag with
      | true => dsimp only at h; simp at h
      | false =>
        dsimp only at h
        simp only [rampLoop, Option.some.injEq, Prod.mk.injEq] at h
        obtain ⟨-, rfl⟩ := h
        obtain ⟨d1, d2, d3, d4⟩ :=
          dwellLoop_clock env ((sendSetpoint ramp.endTemp s).clock + ramp.interval * 60)
            (g + 1) (sendSetpoint ramp.endTemp s) s2 hdw
        have hck : (sendSetpoint ramp.endTemp s).clock = s.clock := rfl
        have hnr : (sendSetpoint ramp.endTemp s).nReads = s.nReads := rfl
        rw [hck] at d1 d3 d4
        rw [hnr] at d2 d3 d4
        exact ⟨d1, d2, d3, d4⟩

/-- Witness for C9 at a concrete ten-second (one-sixth-minute) dwell. -/
theorem thm_C9_witness :
    stInit.clock + (1/6 : ℚ) * 60 ≤ stPollDone.clock ∧
    stInit.nReads ≤ stPollDone.nReads ∧
    stPollDone.clock = stInit.clock + 10 * ((stPollDone.nReads : ℚ) - (stInit.nReads : ℚ)) ∧
    (stInit.nReads < stPollDone.nReads →
      stPollDone.clock - 10 < stInit.clock + (1/6 : ℚ) * 60) :=
  thm_C9 envPoll 3 { endTemp := 30, interval := 1/6 } readingAt30 stInit stPollDone
    (by decide) (by decide)

/-- Claim C10: when the first fetched dictionary has no `_C` field, `read`
does not fail: it returns a reading holding all three fields with a Pt100
value of 0, emits it, and logs it with the 0 in the Pt100 column. -/
theorem thm_C10 (env : Env) (s : St)
    (h : (env.fetchFirst s.nReads).find? (fun p => p.fst == "_C") = none) :
    (read env s).fst = { t := s.clock, temp := env.ctsTemp s.nReads,
                         humid := env.ctsHumid s.nReads, pt100 := 0 } ∧
    (read env s).snd.emitted = s.emitted ++ [(read env s).fst] ∧
    (read env s).snd.log = s.log ++ [[Cell.num s.clock, Cell.num (env.ctsTemp s.nReads),
                                      Cell.num (env.ctsHumid s.nReads), Cell.num 0]] := by
  have hp : dictGetD (env.fetchFirst s.nReads) "_C" 0 = 0 := by
    simp [dictGetD, h]
  refine ⟨?_, ?_, ?_⟩ <;> simp [read, rowOf, hp]

/-- Witness for C10 at a concrete fetch answer without a `_C` field. -/
theorem thm_C10_witness :
    (read envNoC stInit).fst = { t := 0, temp := 21, humid := 45, pt100 := 0 } ∧
    (read envNoC stInit).snd.emitted = stInit.emitted ++ [(read envNoC stInit).fst] ∧
    (read envNoC stInit).snd.log =
      stInit.log ++ [[Cell.num 0, Cell.num 21, Cell.num 45, Cell.num 0]] :=
  thm_C10 envNoC stInit (by decide)

end Pt100
